import Mathlib

/-!
Verification of the image compression / quality assessment core of the
ImageCompressor repository, shallowly embedded in Lean 4.

JavaScript numbers are modelled as exact rationals (`ℚ`); values that the
source produces via `Math.log10`/`Math.sqrt` live in `ℝ`.  8-bit pixel
samples are `ℕ` values; `Uint8ClampedArray` stores clamp to `[0, 255]`.
`Math.round` is `⌊x + 1/2⌋` (JavaScript rounds halves toward +∞), while a
store of a non-integral number into a `Uint8ClampedArray` rounds to the
nearest integer with ties to even (the `ToUint8Clamp` conversion).
Reads past the end of a typed array yield `undefined`, which poisons any
arithmetic with `NaN`; where a claim depends on this the affected function
is given an `Option` result with `none` playing the role of `NaN`.
-/

/-- JavaScript `Math.round` on an exact rational: round half toward +∞. -/
def jsRound (q : ℚ) : ℤ := ⌊q + 1/2⌋

/-- Rounding of a real number the same way (`Math.round` applied to a value
that the source computed with `Math.sqrt`/`Math.log10`). -/
noncomputable def jsRoundReal (x : ℝ) : ℤ := ⌊x + 1/2⌋

/-- `ToUint8Clamp` of an exact rational: clamp to `[0,255]`, then round to
nearest with ties to even.  Used when the source assigns a possibly
non-integral number into a `Uint8ClampedArray` slot. -/
def u8OfRat (q : ℚ) : ℕ :=
  let c : ℚ := max 0 (min 255 q)
  let f : ℤ := ⌊c⌋
  (if c - f < 1/2 then f
   else if 1/2 < c - f then f + 1
   else if Even f then f else f + 1).toNat

/-- `ToUint8Clamp` of an integer value (for example a `Math.round` result):
just the clamp to `[0, 255]`. -/
def u8OfInt (z : ℤ) : ℕ := (min 255 (max 0 z)).toNat

/-! ## Data model: `CompressionSettings` (src/shared/schema.ts)

The schema declares `quality : number`, `mode`, and three optional boolean
flags (`webOptimized`, `sharpenFilter`, `noiseReduction`); an absent flag is
`none`. -/

inductive CompressionMode where
  | balanced
  | aggressive
  | gentle
deriving DecidableEq, Repr

structure CompressionSettings where
  quality : ℤ
  mode : CompressionMode
  webOptimized : Option Bool := none
  sharpenFilter : Option Bool := none
  noiseReduction : Option Bool := none
deriving DecidableEq, Repr

/-! ## src/client/src/lib/image-compression.ts -/

/-- `getMaxSize` (image-compression.ts:122): per-mode maximum dimension. -/
def getMaxSize (mode : CompressionMode) : ℤ :=
  match mode with
  | .aggressive => 1200
  | .balanced => 1920
  | .gentle => 2560

/-- `isWebOptimized` (image-compression.ts:135): only looks at `mode`. -/
def isWebOptimized (settings : CompressionSettings) : Bool :=
  settings.mode = CompressionMode.balanced ∨ settings.mode = CompressionMode.aggressive

/-- `shouldApplySharpenFilter` (image-compression.ts:139).  Note that the
source reads only `mode` and `quality`; the `sharpenFilter` flag of the
settings object is not consulted. -/
def shouldApplySharpenFilter (settings : CompressionSettings) : Bool :=
  settings.mode = CompressionMode.gentle ∨ settings.quality > 80

/-- The smart-resizing block of `calculateOptimalDimensions`
(image-compression.ts:169-177): scale down so the larger dimension equals
the cap when either dimension exceeds it, via `aspectRatio = w / h`. -/
def resizeStep (originalWidth originalHeight maxSize : ℤ) : ℤ × ℤ :=
  let aspectRatio : ℚ := (originalWidth : ℚ) / (originalHeight : ℚ)
  if originalWidth > maxSize ∨ originalHeight > maxSize then
    if originalWidth > originalHeight then
      (maxSize, jsRound ((maxSize : ℚ) / aspectRatio))
    else
      (jsRound ((maxSize : ℚ) * aspectRatio), maxSize)
  else (originalWidth, originalHeight)

/-- `calculateOptimalDimensions` (image-compression.ts:157). -/
def calculateOptimalDimensions (originalWidth originalHeight : ℤ)
    (settings : CompressionSettings) : ℤ × ℤ :=
  let maxSize := getMaxSize settings.mode
  -- smart resizing when either dimension exceeds the cap
  let resized : ℤ × ℤ := resizeStep originalWidth originalHeight maxSize
  -- ensure dimensions are even numbers
  let width := jsRound ((resized.1 : ℚ) / 2) * 2
  let height := jsRound ((resized.2 : ℚ) / 2) * 2
  -- web optimization constraints
  if isWebOptimized settings then
    let webMaxSize := min maxSize 1920
    if width > webMaxSize ∨ height > webMaxSize then
      let ratio : ℚ := min ((webMaxSize : ℚ) / (width : ℚ)) ((webMaxSize : ℚ) / (height : ℚ))
      (jsRound ((width : ℚ) * ratio / 2) * 2, jsRound ((height : ℚ) * ratio / 2) * 2)
    else (width, height)
  else (width, height)

/-- `calculateAdvancedQuality` (image-compression.ts:328): derives the final
encoder quality fraction from the profile and the two dimension pairs. -/
def calculateAdvancedQuality (settings : CompressionSettings)
    (originalDimensions compressedDimensions : ℤ × ℤ) : ℚ :=
  let baseQuality : ℚ := (settings.quality : ℚ) / 100
  let q1 : ℚ :=
    match settings.mode with
    | .aggressive => baseQuality * 0.75
    | .gentle => min (baseQuality * 1.15) 0.98
    | .balanced => baseQuality * 0.9
  let resizeRatio : ℚ :=
    ((compressedDimensions.1 * compressedDimensions.2 : ℤ) : ℚ) /
      ((originalDimensions.1 * originalDimensions.2 : ℤ) : ℚ)
  let q2 : ℚ :=
    if resizeRatio < 0.5 then q1 * 0.95
    else if resizeRatio > 0.9 then q1 * 1.05
    else q1
  let pixelCount := compressedDimensions.1 * compressedDimensions.2
  let q3 : ℚ :=
    if pixelCount > 2000000 then q2 * 0.95
    else if pixelCount < 500000 then q2 * 1.05
    else q2
  max 0.05 (min 0.98 q3)

/-! ## Data model: rasters (`ImageData`)

An `ImageData` is a width, a height and a `Uint8ClampedArray` of RGBA
samples.  Its invariant (`Raster.WF`) — length exactly `width*height*4` and
every sample a byte — always holds for platform-created `ImageData`; pixel
reads are modelled with `List.getD _ 0`, which only differs from the typed
array's `undefined` on inputs that violate the invariant (functions whose
claims depend on out-of-range reads use `List.get?` instead). -/

structure Raster where
  width : ℕ
  height : ℕ
  data : List ℕ
deriving DecidableEq, Repr

/-- The `ImageData` invariant: sample count and byte range. -/
def Raster.WF (r : Raster) : Prop :=
  r.data.length = r.width * r.height * 4 ∧ ∀ v ∈ r.data, v ≤ 255

instance (r : Raster) : Decidable r.WF := by
  unfold Raster.WF
  exact inferInstance

/-- One output sample of `applyUnsharpMask` (image-compression.ts:223).
`k` is the linear index in the output array; the source writes the group
`i, i+1, i+2, i+3` while looping `i` over pixel starts, so the pixel base
is `i = 4 * (k / 4)` and the channel is `k % 4`. -/
def unsharpAt (img : Raster) (k : ℕ) : ℕ :=
  let d := img.data
  let width := img.width
  let height := img.height
  let pixel := k / 4
  let i := 4 * pixel
  let x := pixel % width
  let y := pixel / width
  if k % 4 = 3 then 255
  else if 0 < x ∧ (x : ℤ) < (width : ℤ) - 1 ∧ 0 < y ∧ (y : ℤ) < (height : ℤ) - 1 then
    let center : ℚ := ((d.getD i 0 : ℚ) + (d.getD (i+1) 0 : ℚ) + (d.getD (i+2) 0 : ℚ)) / 3
    let left : ℚ := ((d.getD (i-4) 0 : ℚ) + (d.getD (i-3) 0 : ℚ) + (d.getD (i-2) 0 : ℚ)) / 3
    let right : ℚ := ((d.getD (i+4) 0 : ℚ) + (d.getD (i+5) 0 : ℚ) + (d.getD (i+6) 0 : ℚ)) / 3
    let top : ℚ := ((d.getD (i - width*4) 0 : ℚ) + (d.getD (i - width*4 + 1) 0 : ℚ) +
      (d.getD (i - width*4 + 2) 0 : ℚ)) / 3
    let bottom : ℚ := ((d.getD (i + width*4) 0 : ℚ) + (d.getD (i + width*4 + 1) 0 : ℚ) +
      (d.getD (i + width*4 + 2) 0 : ℚ)) / 3
    let laplacian := 4 * center - (left + right + top + bottom)
    if 3 < |laplacian| then u8OfRat ((d.getD k 0 : ℚ) + 0.3 * laplacian)
    else min (d.getD k 0) 255
  else min (d.getD k 0) 255

/-- `applyUnsharpMask` (image-compression.ts:223): unsharp mask with
amount 0.3 and threshold 3 on interior pixels, passthrough on the 1-pixel
border, alpha forced to 255. -/
def applyUnsharpMask (imageData : Raster) : Raster :=
  { width := imageData.width
    height := imageData.height
    data := (List.range imageData.data.length).map (unsharpAt imageData) }

/-- The 3x3 neighbourhood offsets `(dy, dx)` in the loop order of
`applyNoiseReduction` (`dy` outer, `dx` inner). -/
def noiseOffsets : List (ℤ × ℤ) :=
  [(-1,-1), (-1,0), (-1,1), (0,-1), (0,0), (0,1), (1,-1), (1,0), (1,1)]

/-- One output sample of `applyNoiseReduction` (image-compression.ts:285). -/
def noiseAt (img : Raster) (k : ℕ) : ℕ :=
  let d := img.data
  let width := img.width
  let height := img.height
  let pixel := k / 4
  let x := pixel % width
  let y := pixel / width
  if k % 4 = 3 then 255
  else if 1 < x ∧ (x : ℤ) < (width : ℤ) - 2 ∧ 1 < y ∧ (y : ℤ) < (height : ℤ) - 2 then
    let chSum : ℚ := (noiseOffsets.map (fun dydx =>
      let idx := ((((y : ℤ) + dydx.1) * width + ((x : ℤ) + dydx.2)) * 4).toNat
      (d.getD (idx + k % 4) 0 : ℚ) * ((1 : ℚ) / ((1 + |dydx.2| + |dydx.1| : ℤ) : ℚ)))).sum
    let weightSum : ℚ :=
      (noiseOffsets.map (fun dydx => (1 : ℚ) / ((1 + |dydx.2| + |dydx.1| : ℤ) : ℚ))).sum
    u8OfInt (jsRound (chSum / weightSum))
  else min (d.getD k 0) 255

/-- `applyNoiseReduction` (image-compression.ts:285): distance-weighted 3x3
smoothing on pixels with `x, y` in `(1, dim-2)` exclusive, passthrough
elsewhere, alpha forced to 255. -/
def applyNoiseReduction (imageData : Raster) : Raster :=
  { width := imageData.width
    height := imageData.height
    data := (List.range imageData.data.length).map (noiseAt imageData) }

/-! ## src/client/src/lib/quality-assessment.ts (Metrics Engine) -/

/-- The linear indices the MSE loop reads: `i, i+1, i+2` for every pixel
start `i < n` (`i` stepping by 4).  There is no dimension or length check
in the source. -/
def chanIdx (n : ℕ) : List ℕ :=
  ((List.range n).filter (fun i => i % 4 = 0)).flatMap (fun i => [i, i+1, i+2])

/-- NaN-propagating sum: `none` (NaN) poisons the whole sum. -/
def optSum (l : List (Option ℚ)) : Option ℚ :=
  l.foldr (fun x acc => Option.map₂ (· + ·) x acc) (some 0)

/-- NaN-propagating collection of a list of JavaScript numbers. -/
def optList (l : List (Option ℚ)) : Option (List ℚ) :=
  l.foldr (fun x acc => Option.map₂ List.cons x acc) (some [])

/-- `calculateMSE` (quality-assessment.ts:159): mean of squared R,G,B
differences over the *original's* sample array; reads of the compressed
array past its end yield NaN (`none`), and an empty original gives the
`0/0` NaN. -/
def calculateMSE (original compressed : Raster) : Option ℚ :=
  let ks := chanIdx original.data.length
  let terms := ks.map (fun k =>
    Option.map₂ (fun a b : ℕ => ((a : ℚ) - (b : ℚ))^2)
      (original.data.get? k) (compressed.data.get? k))
  if ks.length = 0 then none
  else (optSum terms).map (fun total => total / (ks.length : ℚ))

/-- The PSNR formula of `calculatePSNR` (quality-assessment.ts:152):
sentinel 100 at MSE 0, else `20*log10(255/sqrt(MSE))`. -/
noncomputable def psnrOfMse (mse : ℚ) : ℝ :=
  if mse = 0 then 100 else 20 * Real.logb 10 (255 / Real.sqrt (mse : ℝ))

/-- `calculatePSNR` (quality-assessment.ts:152). -/
noncomputable def calculatePSNR (original compressed : Raster) : Option ℝ :=
  (calculateMSE original compressed).map psnrOfMse

/-- Grayscale luma of pixel `p`: unweighted mean of its R,G,B samples. -/
def grayAt (d : List ℕ) (p : ℕ) : ℚ :=
  ((d.getD (4*p) 0 : ℚ) + (d.getD (4*p+1) 0 : ℚ) + (d.getD (4*p+2) 0 : ℚ)) / 3

/-- Number of iterations of a `for (i = 0; i < d.length; i += 4)` loop. -/
def pixelLoopCount (d : List ℕ) : ℕ := (d.length + 3) / 4

/-- `calculateSSIM` (quality-assessment.ts:178): the simplified whole-image
SSIM over global means, variances and covariance of the grayscale lumas,
with C1 = 6.5025 and C2 = 58.5225. -/
def calculateSSIM (original compressed : Raster) : ℚ :=
  let n := pixelLoopCount original.data
  let mean1 := (∑ p in Finset.range n, grayAt original.data p) / n
  let mean2 := (∑ p in Finset.range n, grayAt compressed.data p) / n
  let var1 := (∑ p in Finset.range n, (grayAt original.data p - mean1)^2) / n
  let var2 := (∑ p in Finset.range n, (grayAt compressed.data p - mean2)^2) / n
  let covar := (∑ p in Finset.range n,
    (grayAt original.data p - mean1) * (grayAt compressed.data p - mean2)) / n
  let c1 : ℚ := 6.5025
  let c2 : ℚ := 58.5225
  ((2 * mean1 * mean2 + c1) * (2 * covar + c2)) /
    ((mean1 * mean1 + mean2 * mean2 + c1) * (var1 + var2 + c2))

/-- `getGrayValue` (quality-assessment.ts:264). -/
def getGrayValue (d : List ℕ) (x y width : ℕ) : ℚ :=
  let idx := (y * width + x) * 4
  ((d.getD idx 0 : ℚ) + (d.getD (idx+1) 0 : ℚ) + (d.getD (idx+2) 0 : ℚ)) / 3

/-- `calculateSharpness` (quality-assessment.ts:222): mean Sobel gradient
magnitude over interior pixels, normalized by 255; 0 when there are no
interior pixels. -/
noncomputable def calculateSharpness (imageData : Raster) : ℝ :=
  let d := imageData.data
  let w := imageData.width
  let h := imageData.height
  let interior := Finset.Ico 1 (h-1) ×ˢ Finset.Ico 1 (w-1)
  let count := interior.card
  let total : ℝ := ∑ yx in interior,
    let x := yx.2
    let y := yx.1
    let sobelX : ℚ := -getGrayValue d (x-1) (y-1) w + getGrayValue d (x+1) (y-1) w
      - 2*getGrayValue d (x-1) y w + 2*getGrayValue d (x+1) y w
      - getGrayValue d (x-1) (y+1) w + getGrayValue d (x+1) (y+1) w
    let sobelY : ℚ := -getGrayValue d (x-1) (y-1) w - 2*getGrayValue d x (y-1) w
      - getGrayValue d (x+1) (y-1) w + getGrayValue d (x-1) (y+1) w
      + 2*getGrayValue d x (y+1) w + getGrayValue d (x+1) (y+1) w
    Real.sqrt ((sobelX : ℝ)^2 + (sobelY : ℝ)^2)
  if 0 < count then (total / count) / 255 else 0

/-- `calculateContrast` (quality-assessment.ts:270): standard deviation of
the grayscale lumas, normalized by 255. -/
noncomputable def calculateContrast (imageData : Raster) : ℝ :=
  let n := pixelLoopCount imageData.data
  let mean := (∑ p in Finset.range n, grayAt imageData.data p) / n
  let variance := ∑ p in Finset.range n, (grayAt imageData.data p - mean)^2
  Real.sqrt ((variance / n : ℚ) : ℝ) / 255

/-- `calculateColorfulness` (quality-assessment.ts:309). -/
noncomputable def calculateColorfulness (imageData : Raster) : ℝ :=
  let d := imageData.data
  let n := pixelLoopCount d
  let rgAt := fun p => |(d.getD (4*p) 0 : ℚ) - (d.getD (4*p+1) 0 : ℚ)|
  let ybAt := fun p =>
    |((d.getD (4*p) 0 : ℚ) + (d.getD (4*p+1) 0 : ℚ)) / 2 - (d.getD (4*p+2) 0 : ℚ)|
  let meanRG := (∑ p in Finset.range n, rgAt p) / n
  let meanYB := (∑ p in Finset.range n, ybAt p) / n
  let varRG := ∑ p in Finset.range n, (rgAt p - meanRG)^2
  let varYB := ∑ p in Finset.range n, (ybAt p - meanYB)^2
  let stdRG : ℝ := Real.sqrt ((varRG / n : ℚ) : ℝ)
  let stdYB : ℝ := Real.sqrt ((varYB / n : ℚ) : ℝ)
  Real.sqrt (stdRG^2 + stdYB^2) / 255

/-- `calculateFileEfficiency` (quality-assessment.ts:378). -/
noncomputable def calculateFileEfficiency (originalSize compressedSize : ℚ)
    (psnr : ℝ) : ℝ :=
  let compressionRatio := originalSize / compressedSize
  let qualityFactor := min (psnr / 40) 1
  ((compressionRatio : ℝ) * qualityFactor) / 10

/-- The metrics object consumed by `calculateOverallQuality`. -/
structure OverallMetricsInput where
  psnr : ℝ
  ssim : ℝ
  sharpness : ℝ
  contrast : ℝ
  colorfulness : ℝ
  fileEfficiency : ℝ

/-- `calculateOverallQuality` (quality-assessment.ts:389): weighted sum of
normalized metrics, times 100, rounded. -/
noncomputable def calculateOverallQuality (metrics : OverallMetricsInput) : ℤ :=
  let normalizedPSNR := min (metrics.psnr / 40) 1
  let normalizedSSIM := max 0 metrics.ssim
  let normalizedSharpness := min (metrics.sharpness * 2) 1
  let normalizedContrast := min (metrics.contrast * 2) 1
  let normalizedColorfulness := min (metrics.colorfulness * 2) 1
  let normalizedEfficiency := min (metrics.fileEfficiency / 2) 1
  let score := normalizedPSNR * 0.3 + normalizedSSIM * 0.25 + normalizedSharpness * 0.2
    + normalizedContrast * 0.1 + normalizedColorfulness * 0.1 + normalizedEfficiency * 0.05
  jsRoundReal (score * 100)

/-- The metrics wiring of `analyzeImageQuality` (quality-assessment.ts:37):
PSNR/SSIM compare the two rasters, sharpness/contrast/colorfulness are
computed on the compressed raster, file efficiency from the byte sizes and
the PSNR; the six feed `calculateOverallQuality`. -/
noncomputable def overallQualityOf (original compressed : Raster)
    (originalSize compressedSize : ℚ) : Option ℤ :=
  (calculatePSNR original compressed).map (fun psnr =>
    calculateOverallQuality
      { psnr := psnr
        ssim := ((calculateSSIM original compressed : ℚ) : ℝ)
        sharpness := calculateSharpness compressed
        contrast := calculateContrast compressed
        colorfulness := calculateColorfulness compressed
        fileEfficiency := calculateFileEfficiency originalSize compressedSize psnr })

/-- Result of `calculateDifference` (quality-assessment.ts:443): the
amplified visualization buffer and the raw max / mean per-pixel average
absolute channel difference. -/
structure DifferenceResult where
  data : List ℕ
  maxDifference : ℚ
  averageDifference : ℚ
deriving DecidableEq, Repr

/-- `calculateDifference` (quality-assessment.ts:443): loops over the
*original's* pixel starts with no dimension check; out-of-range reads of
the compressed array poison the result with NaN (`none`), and an empty
original gives the `0/0` NaN average. -/
def calculateDifference (original compressed : Raster) : Option DifferenceResult :=
  let starts := (List.range original.data.length).filter (fun i => i % 4 = 0)
  let avgs := starts.map (fun i =>
    let ch := fun (j : ℕ) => Option.map₂ (fun a b : ℕ => |(a : ℚ) - (b : ℚ)|)
      (original.data.get? (i+j)) (compressed.data.get? (i+j))
    Option.map₂ (fun rg b => (rg + b) / 3) (Option.map₂ (· + ·) (ch 0) (ch 1)) (ch 2))
  if starts.length = 0 then none
  else (optList avgs).map (fun l =>
    { data := l.flatMap (fun avgDiff =>
        let amplified := min (avgDiff * 3) 255
        [u8OfRat amplified, u8OfRat amplified, u8OfRat amplified, 255])
      maxDifference := l.foldl max 0
      averageDifference := l.sum / (starts.length : ℚ) })

/-! ## src/client/src/lib/batch-processor.ts (Batch Coordinator)

Only the queue-state transformation of `retryFailed` is needed; the
platform payload of a `QueueItem` (the `File` object, the settings and the
callbacks) is irrelevant to it and elided, while every field `retryFailed`
reads or writes — `status`, `retryCount`, `error`, `file.status` — and the
untouched bookkeeping fields are kept. -/

inductive QueuePriority
  | high
  | normal
  | low
deriving DecidableEq, Repr

inductive QueueStatus
  | pending
  | processing
  | completed
  | failed
  | paused
deriving DecidableEq, Repr

inductive FileStatus
  | ready
  | compressing
  | compressed
  | error
deriving DecidableEq, Repr

structure QueueItem where
  id : String
  priority : QueuePriority
  status : QueueStatus
  startTime : Option ℤ := none
  endTime : Option ℤ := none
  error : Option String := none
  retryCount : ℕ
  fileStatus : FileStatus
deriving DecidableEq, Repr

/-- The per-item body of `retryFailed` (batch-processor.ts:242-250). -/
def retryFailedItem (item : QueueItem) : QueueItem :=
  if item.status = QueueStatus.failed then
    { item with
        status := QueueStatus.pending
        retryCount := 0
        error := none
        fileStatus := FileStatus.ready }
  else item

/-- `retryFailed` (batch-processor.ts:242): the queue transformation (the
subsequent `startProcessing` kick concerns the scheduler, not the queue
contents). -/
def retryFailed (queue : List QueueItem) : List QueueItem :=
  queue.map retryFailedItem

/-- Modelled from the claim's wording for C4 (spec section 4.2): the
weighted average per channel with weight `1/(1+|dx|+|dy|)` over the 3x3
window centred at `(x, y)`.  Used to compare the noise-reduction claim
against the source behaviour. -/
def claimedNoiseAverage (img : Raster) (x y ch : ℕ) : ℚ :=
  (∑ dydx in ({-1, 0, 1} : Finset ℤ) ×ˢ ({-1, 0, 1} : Finset ℤ),
    (img.data.getD (((((y : ℤ) + dydx.1) * img.width + ((x : ℤ) + dydx.2)) * 4).toNat + ch) 0 : ℚ)
      * ((1 : ℚ) / ((1 + |dydx.2| + |dydx.1| : ℤ) : ℚ))) /
  (∑ dydx in ({-1, 0, 1} : Finset ℤ) ×ˢ ({-1, 0, 1} : Finset ℤ),
    (1 : ℚ) / ((1 + |dydx.2| + |dydx.1| : ℤ) : ℚ))
theorem jsRound_intCast (n : ℤ) : jsRound (n : ℚ) = n := by
  unfold jsRound
  rw [Int.floor_int_add]
  norm_num

theorem jsRound_le_of_le {q : ℚ} {n : ℤ} (h : q ≤ n) : jsRound q ≤ n := by
  unfold jsRound
  have : ⌊q + 1/2⌋ < n + 1 := by
    rw [Int.floor_lt]
    push_cast
    linarith
  omega

theorem jsRound_nonneg {q : ℚ} (h : 0 ≤ q) : 0 ≤ jsRound q := by
  unfold jsRound
  have : (0 : ℤ) = ⌊(1/2 : ℚ)⌋ := by norm_num
  rw [this]
  exact Int.floor_le_floor (by linarith)

theorem jsRound_le (q : ℚ) : (jsRound q : ℚ) ≤ q + 1/2 :=
  Int.floor_le _

/-- The even-rounding idiom `Math.round(n / 2) * 2` applied to an integer:
identity on even integers, `n + 1` on odd ones. -/
theorem evenRound_eq (n : ℤ) :
    jsRound ((n : ℚ) / 2) * 2 = if Even n then n else n + 1 := by
  rcases Int.even_or_odd n with ⟨k, hk⟩ | ⟨k, hk⟩
  · subst hk
    have h1 : ((k + k : ℤ) : ℚ) / 2 = (k : ℚ) := by push_cast; ring
    rw [h1, jsRound_intCast]
    have he : Even (k + k) := ⟨k, rfl⟩
    rw [if_pos he]
    ring
  · subst hk
    have h1 : ((2 * k + 1 : ℤ) : ℚ) / 2 = (k : ℚ) + 1/2 := by push_cast; ring
    have h2 : jsRound ((k : ℚ) + 1/2) = k + 1 := by
      unfold jsRound
      rw [show ((k : ℚ) + 1/2 + 1/2) = ((k + 1 : ℤ) : ℚ) by push_cast; ring]
      exact Int.floor_intCast _
    rw [h1, h2]
    have : ¬ Even (2 * k + 1) := by
      simp [Int.even_add_one, Int.even_mul]
    rw [if_neg this]
    ring

theorem evenRound_even (n : ℤ) : Even (jsRound ((n : ℚ) / 2) * 2) :=
  ⟨jsRound ((n : ℚ) / 2), by ring⟩

theorem evenRound_le_add_one (n : ℤ) : jsRound ((n : ℚ) / 2) * 2 ≤ n + 1 := by
  rw [evenRound_eq]
  split <;> omega

theorem evenRound_le_of_even {n : ℤ} (h : Even n) :
    jsRound ((n : ℚ) / 2) * 2 ≤ n := by
  rw [evenRound_eq, if_pos h]

/-- An even integer that is at most `b + 1` for even `b` is at most `b`. -/
theorem even_le_of_le_add_one {a b : ℤ} (ha : Even a) (hb : Even b)
    (h : a ≤ b + 1) : a ≤ b := by
  rcases ha with ⟨x, hx⟩
  rcases hb with ⟨y, hy⟩
  omega

/-! ## Helper facts about the mode table -/

theorem getMaxSize_pos (m : CompressionMode) : 0 < getMaxSize m := by
  cases m <;> decide

theorem getMaxSize_even (m : CompressionMode) : Even (getMaxSize m) := by
  cases m <;> decide

theorem isWebOptimized_iff (s : CompressionSettings) :
    isWebOptimized s = true ↔
      (s.mode = CompressionMode.balanced ∨ s.mode = CompressionMode.aggressive) := by
  simp [isWebOptimized]

theorem webMaxSize_eq {s : CompressionSettings} (h : isWebOptimized s = true) :
    min (getMaxSize s.mode) 1920 = getMaxSize s.mode := by
  rcases (isWebOptimized_iff s).mp h with hm | hm <;> rw [hm] <;> decide

/-- Bounds for the smart-resizing block: it never upscales and never
produces a dimension above the cap. -/
theorem resizeStep_le {w h M : ℤ} (hw : 0 < w) (hh : 0 < h) (hM : 0 < M) :
    (resizeStep w h M).1 ≤ w ∧ (resizeStep w h M).2 ≤ h ∧
      (resizeStep w h M).1 ≤ M ∧ (resizeStep w h M).2 ≤ M := by
  have hwq : (0 : ℚ) < (w : ℚ) := by exact_mod_cast hw
  have hhq : (0 : ℚ) < (h : ℚ) := by exact_mod_cast hh
  simp only [resizeStep]
  by_cases hbig : w > M ∨ h > M
  · rw [if_pos hbig]
    by_cases hwh : w > h
    · rw [if_pos hwh]
      have hMw : M < w := by omega
      have hq : (M : ℚ) / ((w : ℚ) / (h : ℚ)) = (M : ℚ) * (h : ℚ) / (w : ℚ) :=
        div_div_eq_mul_div _ _ _
      have hle_h : (M : ℚ) * (h : ℚ) / (w : ℚ) ≤ ((h : ℤ) : ℚ) := by
        rw [div_le_iff₀ hwq]
        have hMwq : (M : ℚ) ≤ (w : ℚ) := by exact_mod_cast hMw.le
        nlinarith
      have hle_M : (M : ℚ) * (h : ℚ) / (w : ℚ) ≤ ((M : ℤ) : ℚ) := by
        rw [div_le_iff₀ hwq]
        have hhw : (h : ℚ) ≤ (w : ℚ) := by exact_mod_cast hwh.le
        have hMq : (0 : ℚ) ≤ (M : ℚ) := by exact_mod_cast hM.le
        nlinarith
      refine ⟨hMw.le, ?_, le_refl _, ?_⟩
      · rw [hq]
        exact jsRound_le_of_le hle_h
      · rw [hq]
        exact jsRound_le_of_le hle_M
    · rw [if_neg hwh]
      push_neg at hwh
      have hMh : M < h := by omega
      have hq : (M : ℚ) * ((w : ℚ) / (h : ℚ)) = (M : ℚ) * (w : ℚ) / (h : ℚ) :=
        (mul_div_assoc _ _ _).symm
      have hle_w : (M : ℚ) * (w : ℚ) / (h : ℚ) ≤ ((w : ℤ) : ℚ) := by
        rw [div_le_iff₀ hhq]
        have hMhq : (M : ℚ) ≤ (h : ℚ) := by exact_mod_cast hMh.le
        nlinarith
      have hle_M : (M : ℚ) * (w : ℚ) / (h : ℚ) ≤ ((M : ℤ) : ℚ) := by
        rw [div_le_iff₀ hhq]
        have hwhq : (w : ℚ) ≤ (h : ℚ) := by exact_mod_cast hwh
        have hMq : (0 : ℚ) ≤ (M : ℚ) := by exact_mod_cast hM.le
        nlinarith
      refine ⟨?_, hMh.le, ?_, le_refl _⟩
      · rw [hq]
        exact jsRound_le_of_le hle_w
      · rw [hq]
        exact jsRound_le_of_le hle_M
  · rw [if_neg hbig]
    push_neg at hbig
    exact ⟨le_refl _, le_refl _, hbig.1, hbig.2⟩

/-- When both even-rounded dimensions are within the mode cap, the
web-optimization re-scale is a no-op (its guard compares against
`min(modeCap, 1920)`, which equals the mode cap for the web modes). -/
theorem calculateOptimalDimensions_eq_of (w h : ℤ) (s : CompressionSettings)
    (h1 : jsRound (((resizeStep w h (getMaxSize s.mode)).1 : ℚ) / 2) * 2 ≤ getMaxSize s.mode)
    (h2 : jsRound (((resizeStep w h (getMaxSize s.mode)).2 : ℚ) / 2) * 2 ≤ getMaxSize s.mode) :
    calculateOptimalDimensions w h s =
      (jsRound (((resizeStep w h (getMaxSize s.mode)).1 : ℚ) / 2) * 2,
        jsRound (((resizeStep w h (getMaxSize s.mode)).2 : ℚ) / 2) * 2) := by
  simp only [calculateOptimalDimensions]
  by_cases hweb : isWebOptimized s = true
  · rw [if_pos hweb, webMaxSize_eq hweb]
    rw [if_neg (by push_neg; exact ⟨h1, h2⟩)]
  · rw [if_neg hweb]

/-- C1 (amended): for positive source dimensions and any settings, the
geometry planner returns even dimensions, each at most one more than the
corresponding source dimension, hence never exceeding an even source
dimension.  (The unamended claim — never exceeding the source at all —
fails for odd sources, see the counterexample.) -/
theorem calculateOptimalDimensions_even_le (w h : ℤ) (s : CompressionSettings)
    (hw : 0 < w) (hh : 0 < h) :
    Even (calculateOptimalDimensions w h s).1 ∧ Even (calculateOptimalDimensions w h s).2 ∧
      (calculateOptimalDimensions w h s).1 ≤ w + 1 ∧
      (calculateOptimalDimensions w h s).2 ≤ h + 1 ∧
      (Even w → (calculateOptimalDimensions w h s).1 ≤ w) ∧
      (Even h → (calculateOptimalDimensions w h s).2 ≤ h) := by
  obtain ⟨hr1w, hr2h, hr1M, hr2M⟩ := resizeStep_le (M := getMaxSize s.mode) hw hh (getMaxSize_pos s.mode)
  have hW1 : jsRound (((resizeStep w h (getMaxSize s.mode)).1 : ℚ) / 2) * 2 ≤
      (resizeStep w h (getMaxSize s.mode)).1 + 1 := evenRound_le_add_one _
  have hH1 : jsRound (((resizeStep w h (getMaxSize s.mode)).2 : ℚ) / 2) * 2 ≤
      (resizeStep w h (getMaxSize s.mode)).2 + 1 := evenRound_le_add_one _
  have hWM : jsRound (((resizeStep w h (getMaxSize s.mode)).1 : ℚ) / 2) * 2 ≤ getMaxSize s.mode :=
    even_le_of_le_add_one (evenRound_even _) (getMaxSize_even s.mode) (by omega)
  have hHM : jsRound (((resizeStep w h (getMaxSize s.mode)).2 : ℚ) / 2) * 2 ≤ getMaxSize s.mode :=
    even_le_of_le_add_one (evenRound_even _) (getMaxSize_even s.mode) (by omega)
  rw [calculateOptimalDimensions_eq_of w h s hWM hHM]
  refine ⟨evenRound_even _, evenRound_even _, by omega, by omega, ?_, ?_⟩
  · intro hwe
    exact even_le_of_le_add_one (evenRound_even _) hwe (by omega)
  · intro hhe
    exact even_le_of_le_add_one (evenRound_even _) hhe (by omega)

/-- C1 witness: the amended theorem instantiated on a 1920x1080 source. -/
theorem calculateOptimalDimensions_even_le_witness :
    (0 : ℤ) < 1920 ∧ (0 : ℤ) < 1080 ∧
      (Even (calculateOptimalDimensions 1920 1080 ⟨80, .balanced, none, none, none⟩).1 ∧
        Even (calculateOptimalDimensions 1920 1080 ⟨80, .balanced, none, none, none⟩).2 ∧
        (calculateOptimalDimensions 1920 1080 ⟨80, .balanced, none, none, none⟩).1 ≤ 1920 + 1 ∧
        (calculateOptimalDimensions 1920 1080 ⟨80, .balanced, none, none, none⟩).2 ≤ 1080 + 1 ∧
        (Even (1920 : ℤ) →
          (calculateOptimalDimensions 1920 1080 ⟨80, .balanced, none, none, none⟩).1 ≤ 1920) ∧
        (Even (1080 : ℤ) →
          (calculateOptimalDimensions 1920 1080 ⟨80, .balanced, none, none, none⟩).2 ≤ 1080)) :=
  ⟨by decide, by decide,
    calculateOptimalDimensions_even_le 1920 1080 ⟨80, .balanced, none, none, none⟩
      (by decide) (by decide)⟩

/-- C1 counterexample: a 3x3 source is rounded *up* to 4x4 by the
`Math.round(d / 2) * 2` evenness step, exceeding the source dimensions. -/
theorem calculateOptimalDimensions_counterexample :
    calculateOptimalDimensions 3 3 ⟨80, .balanced, none, none, none⟩ = (4, 4) ∧
      ¬((4 : ℤ) ≤ 3) := by
  constructor
  · have hres : resizeStep 3 3 1920 = (3, 3) := by
      norm_num [resizeStep]
    simp only [calculateOptimalDimensions]
    norm_num [hres, getMaxSize, jsRound]
  · decide

/-- C2 (amended): the sharpening stage is applied iff the mode is `gentle`
or the quality exceeds 80; the explicit `sharpenFilter` flag is ignored by
`shouldApplySharpenFilter`. -/
theorem shouldApplySharpenFilter_iff (s : CompressionSettings) :
    shouldApplySharpenFilter s = true ↔
      (s.mode = CompressionMode.gentle ∨ 80 < s.quality) := by
  simp [shouldApplySharpenFilter]

/-- C2 counterexample: with `sharpenFilter = true`, mode `balanced` and
quality 80, the claim requires sharpening to be applied, but the source
predicate evaluates to `false`. -/
theorem shouldApplySharpenFilter_counterexample :
    (CompressionSettings.mk 80 .balanced none (some true) none).sharpenFilter = some true ∧
      (CompressionSettings.mk 80 .balanced none (some true) none).mode = CompressionMode.balanced ∧
      (CompressionSettings.mk 80 .balanced none (some true) none).quality ≤ 80 ∧
      shouldApplySharpenFilter (CompressionSettings.mk 80 .balanced none (some true) none) = false := by
  decide

/-- C7: the 1920x1080 / balanced / quality-80 scenario: geometry is
unchanged and the derived quality is exactly 0.8*0.9*1.05*0.95 = 0.7182. -/
theorem scenario_1920_1080_balanced_80 :
    calculateOptimalDimensions 1920 1080 ⟨80, .balanced, none, none, none⟩ = (1920, 1080) ∧
      calculateAdvancedQuality ⟨80, .balanced, none, none, none⟩ (1920, 1080) (1920, 1080) =
        0.7182 ∧
      (0.7182 : ℚ) = (0.8 * 0.9) * 1.05 * 0.95 := by
  refine ⟨?_, ?_, by norm_num⟩
  · have hres : resizeStep 1920 1080 1920 = (1920, 1080) := by
      norm_num [resizeStep]
    simp only [calculateOptimalDimensions]
    norm_num [hres, getMaxSize, jsRound]
  · simp only [calculateAdvancedQuality]
    norm_num [max_def, min_def]

/-- C8: the derived quality fraction always lands in [0.05, 0.98] for a
valid profile (quality 10-95) and positive dimensions (the final clamp
guarantees it). -/
theorem calculateAdvancedQuality_bounds (s : CompressionSettings) (origDims outDims : ℤ × ℤ)
    (hq1 : 10 ≤ s.quality) (hq2 : s.quality ≤ 95)
    (how : 0 < origDims.1) (hoh : 0 < origDims.2)
    (hcw : 0 < outDims.1) (hch : 0 < outDims.2) :
    0.05 ≤ calculateAdvancedQuality s origDims outDims ∧
      calculateAdvancedQuality s origDims outDims ≤ 0.98 := by
  simp only [calculateAdvancedQuality]
  exact ⟨le_max_left _ _, max_le (by norm_num) (min_le_left _ _)⟩

/-- C8 witness: the bound theorem instantiated at quality 80, balanced,
100x100 dimensions. -/
theorem calculateAdvancedQuality_bounds_witness :
    ((10 : ℤ) ≤ 80 ∧ (80 : ℤ) ≤ 95 ∧ (0 : ℤ) < 100) ∧
      0.05 ≤ calculateAdvancedQuality ⟨80, .balanced, none, none, none⟩ (100, 100) (100, 100) ∧
      calculateAdvancedQuality ⟨80, .balanced, none, none, none⟩ (100, 100) (100, 100) ≤ 0.98 :=
  ⟨by decide,
    calculateAdvancedQuality_bounds ⟨80, .balanced, none, none, none⟩ (100, 100) (100, 100)
      (by decide) (by decide) (by decide) (by decide) (by decide) (by decide)⟩

/-- Sample strings for concrete queue items (ids and error messages). -/
def wId1 : String := "file-1-1000"

def wId2 : String := "file-2-1000"

def wErr : String := "Unknown error"

/-- C10: `retryFailed` keeps the queue length, sends every `failed` item
back to `pending` with `retryCount` 0, a cleared error and file status
`ready`, and leaves items in any other status entirely unchanged. -/
theorem retryFailed_spec (queue : List QueueItem) (i : ℕ) (item : QueueItem)
    (h : queue.get? i = some item) :
    (retryFailed queue).length = queue.length ∧
      (item.status = QueueStatus.failed →
        (retryFailed queue).get? i = some { item with
          status := QueueStatus.pending
          retryCount := 0
          error := none
          fileStatus := FileStatus.ready }) ∧
      (item.status ≠ QueueStatus.failed → (retryFailed queue).get? i = some item) := by
  unfold retryFailed
  refine ⟨List.length_map _ _, ?_, ?_⟩
  · intro hf
    rw [List.get?_map, h]
    simp [retryFailedItem, hf]
  · intro hf
    rw [List.get?_map, h]
    simp [retryFailedItem, hf]

/-- C10 witness: a two-item queue with one failed and one completed item. -/
theorem retryFailed_spec_witness :
    (([⟨wId1, .normal, .failed, none, none, some wErr, 2, .error⟩,
        ⟨wId2, .normal, .completed, some 5, some 9, none, 0, .compressed⟩] :
        List QueueItem).get? 0 =
      some ⟨wId1, .normal, .failed, none, none, some wErr, 2, .error⟩) ∧
      ((retryFailed [⟨wId1, .normal, .failed, none, none, some wErr, 2, .error⟩,
          ⟨wId2, .normal, .completed, some 5, some 9, none, 0, .compressed⟩]).length =
        ([⟨wId1, .normal, .failed, none, none, some wErr, 2, .error⟩,
          ⟨wId2, .normal, .completed, some 5, some 9, none, 0, .compressed⟩] :
          List QueueItem).length ∧
      ((⟨wId1, .normal, .failed, none, none, some wErr, 2, .error⟩ : QueueItem).status =
          QueueStatus.failed →
        (retryFailed [⟨wId1, .normal, .failed, none, none, some wErr, 2, .error⟩,
            ⟨wId2, .normal, .completed, some 5, some 9, none, 0, .compressed⟩]).get? 0 =
          some { (⟨wId1, .normal, .failed, none, none, some wErr, 2, .error⟩ : QueueItem) with
            status := QueueStatus.pending
            retryCount := 0
            error := none
            fileStatus := FileStatus.ready }) ∧
      ((⟨wId1, .normal, .failed, none, none, some wErr, 2, .error⟩ : QueueItem).status ≠
          QueueStatus.failed →
        (retryFailed [⟨wId1, .normal, .failed, none, none, some wErr, 2, .error⟩,
            ⟨wId2, .normal, .completed, some 5, some 9, none, 0, .compressed⟩]).get? 0 =
          some ⟨wId1, .normal, .failed, none, none, some wErr, 2, .error⟩)) :=
  ⟨rfl, retryFailed_spec _ 0 _ rfl⟩

/-! ## List access and NaN-propagation helpers for the Metrics Engine -/

theorem get?_eq_some_getD {l : List ℕ} {k : ℕ} (h : k < l.length) :
    l.get? k = some (l.getD k 0) := by
  rw [List.get?_eq_get h]
  congr 1
  exact (List.getD_eq_get l 0 h).symm

theorem chanIdx_mem_lt {n k : ℕ} (hn : n % 4 = 0) (hk : k ∈ chanIdx n) : k < n := by
  unfold chanIdx at hk
  simp only [List.mem_flatMap, List.mem_filter, List.mem_range, decide_eq_true_eq] at hk
  obtain ⟨i, ⟨hi, him⟩, hk⟩ := hk
  simp only [List.mem_cons, List.mem_singleton, List.not_mem_nil, or_false] at hk
  rcases hk with rfl | rfl | rfl <;> omega

theorem zero_mem_chanIdx {n : ℕ} (hpos : 0 < n) : 0 ∈ chanIdx n := by
  unfold chanIdx
  simp only [List.mem_flatMap, List.mem_filter, List.mem_range, decide_eq_true_eq]
  refine ⟨0, ⟨hpos, by norm_num⟩, by simp⟩

theorem chanIdx_length_pos {n : ℕ} (hpos : 0 < n) : 0 < (chanIdx n).length :=
  List.length_pos.2 (List.ne_nil_of_mem (zero_mem_chanIdx hpos))

theorem optSum_map_some {α : Type} (l : List α) (f : α → ℚ) :
    optSum (l.map (fun a => some (f a))) = some ((l.map f).sum) := by
  induction l with
  | nil => simp [optSum]
  | cons a t ih =>
    simp only [List.map_cons, optSum, List.foldr_cons, List.sum_cons]
    simp only [optSum] at ih
    rw [ih]
    simp [Option.map₂]

theorem optList_map_some {α : Type} (l : List α) (f : α → ℚ) :
    optList (l.map (fun a => some (f a))) = some (l.map f) := by
  induction l with
  | nil => simp [optList]
  | cons a t ih =>
    simp only [List.map_cons, optList, List.foldr_cons]
    simp only [optList] at ih
    rw [ih]
    simp [Option.map₂]

/-- Under the length conditions of real `ImageData`, `calculateMSE` reduces
to the explicit rational mean of squared channel differences. -/
theorem calculateMSE_eq (o c : Raster) (hlen4 : o.data.length % 4 = 0)
    (hpos : 0 < o.data.length) (hle : o.data.length ≤ c.data.length) :
    calculateMSE o c = some
      (((chanIdx o.data.length).map
          (fun k => ((o.data.getD k 0 : ℚ) - (c.data.getD k 0 : ℚ))^2)).sum /
        ((chanIdx o.data.length).length : ℚ)) := by
  simp only [calculateMSE]
  have hne : ¬ (chanIdx o.data.length).length = 0 := by
    have := chanIdx_length_pos hpos
    omega
  rw [if_neg hne]
  have hterms : (chanIdx o.data.length).map (fun k =>
      Option.map₂ (fun a b : ℕ => ((a : ℚ) - (b : ℚ))^2)
        (o.data.get? k) (c.data.get? k)) =
      (chanIdx o.data.length).map (fun k =>
        some (((o.data.getD k 0 : ℚ) - (c.data.getD k 0 : ℚ))^2)) := by
    apply List.map_congr_left
    intro k hk
    have hko : k < o.data.length := chanIdx_mem_lt hlen4 hk
    have hkc : k < c.data.length := lt_of_lt_of_le hko hle
    rw [get?_eq_some_getD hko, get?_eq_some_getD hkc]
    rfl
  rw [hterms, optSum_map_some]
  rfl

/-- C9: MSE of an image with itself is 0 and its PSNR is the sentinel 100;
for a strictly positive MSE the PSNR is `20*log10(255/sqrt(MSE))`. -/
theorem psnr_mse_self (img : Raster) (hwf : img.WF) (hpos : 0 < img.width * img.height) :
    calculateMSE img img = some 0 ∧ calculatePSNR img img = some 100 ∧
      ∀ m : ℚ, 0 < m → psnrOfMse m = 20 * Real.logb 10 (255 / Real.sqrt (m : ℝ)) := by
  have hlen : img.data.length = img.width * img.height * 4 := hwf.1
  have hlen4 : img.data.length % 4 = 0 := by omega
  have hposl : 0 < img.data.length := by
    rw [hlen]
    positivity
  have h0 : calculateMSE img img = some 0 := by
    rw [calculateMSE_eq img img hlen4 hposl le_rfl]
    congr 1
    have : ((chanIdx img.data.length).map
        (fun k => ((img.data.getD k 0 : ℚ) - (img.data.getD k 0 : ℚ))^2)) =
        (chanIdx img.data.length).map (fun _ => (0 : ℚ)) := by
      apply List.map_congr_left
      intro k _
      ring
    rw [this]
    simp
  refine ⟨h0, ?_, ?_⟩
  · unfold calculatePSNR
    rw [h0]
    simp [psnrOfMse]
  · intro m hm
    unfold psnrOfMse
    rw [if_neg (ne_of_gt hm)]

/-- C9 witness: a concrete single-pixel image. -/
theorem psnr_mse_self_witness :
    ((Raster.mk 1 1 [10, 20, 30, 255]).WF ∧ 0 < 1 * 1) ∧
      (calculateMSE (Raster.mk 1 1 [10, 20, 30, 255]) (Raster.mk 1 1 [10, 20, 30, 255]) =
          some 0 ∧
        calculatePSNR (Raster.mk 1 1 [10, 20, 30, 255]) (Raster.mk 1 1 [10, 20, 30, 255]) =
          some 100 ∧
        ∀ m : ℚ, 0 < m →
          psnrOfMse m = 20 * Real.logb 10 (255 / Real.sqrt (m : ℝ))) :=
  ⟨⟨by decide, by decide⟩,
    psnr_mse_self (Raster.mk 1 1 [10, 20, 30, 255]) (by decide) (by decide)⟩

/-- `calculateDifference` produces a result (no error, no NaN) whenever the
original's sample array is well-sized and no longer than the compressed
one — regardless of the rasters' declared dimensions. -/
theorem calculateDifference_isSome (o c : Raster) (hlen4 : o.data.length % 4 = 0)
    (hpos : 0 < o.data.length) (hle : o.data.length ≤ c.data.length) :
    (calculateDifference o c).isSome = true := by
  simp only [calculateDifference]
  have hstarts : ∀ i ∈ (List.range o.data.length).filter (fun i => i % 4 = 0),
      i + 2 < o.data.length := by
    intro i hi
    simp only [List.mem_filter, List.mem_range, decide_eq_true_eq] at hi
    omega
  have hne : ¬ ((List.range o.data.length).filter (fun i => i % 4 = 0)).length = 0 := by
    have h0 : 0 ∈ (List.range o.data.length).filter (fun i => i % 4 = 0) := by
      simp only [List.mem_filter, List.mem_range, decide_eq_true_eq]
      exact ⟨hpos, by norm_num⟩
    have := List.length_pos.2 (List.ne_nil_of_mem h0)
    omega
  rw [if_neg hne]
  have havgs : ((List.range o.data.length).filter (fun i => i % 4 = 0)).map (fun i =>
      Option.map₂ (fun rg b => (rg + b) / 3)
        (Option.map₂ (· + ·)
          (Option.map₂ (fun a b : ℕ => |(a : ℚ) - (b : ℚ)|)
            (o.data.get? (i+0)) (c.data.get? (i+0)))
          (Option.map₂ (fun a b : ℕ => |(a : ℚ) - (b : ℚ)|)
            (o.data.get? (i+1)) (c.data.get? (i+1))))
        (Option.map₂ (fun a b : ℕ => |(a : ℚ) - (b : ℚ)|)
          (o.data.get? (i+2)) (c.data.get? (i+2)))) =
      ((List.range o.data.length).filter (fun i => i % 4 = 0)).map (fun i =>
        some (((|(o.data.getD (i+0) 0 : ℚ) - (c.data.getD (i+0) 0 : ℚ)| +
            |(o.data.getD (i+1) 0 : ℚ) - (c.data.getD (i+1) 0 : ℚ)|) +
            |(o.data.getD (i+2) 0 : ℚ) - (c.data.getD (i+2) 0 : ℚ)|) / 3)) := by
    apply List.map_congr_left
    intro i hi
    have h2 := hstarts i hi
    rw [get?_eq_some_getD (show i + 0 < o.data.length by omega),
      get?_eq_some_getD (show i + 1 < o.data.length by omega),
      get?_eq_some_getD (show i + 2 < o.data.length by omega),
      get?_eq_some_getD (show i + 0 < c.data.length by omega),
      get?_eq_some_getD (show i + 1 < c.data.length by omega),
      get?_eq_some_getD (show i + 2 < c.data.length by omega)]
    rfl
  rw [havgs, optList_map_some]
  rfl

/-- C3 (amended): the Metrics Engine has no dimension check and no
`DimensionMismatch` error: on rasters with differing dimensions whose
original sample array is well-sized and not longer than the compressed one,
`calculateMSE` and `calculateDifference` still return numeric results. -/
theorem metrics_no_dimension_check (o c : Raster)
    (hdim : o.width ≠ c.width ∨ o.height ≠ c.height)
    (hlen4 : o.data.length % 4 = 0) (hpos : 0 < o.data.length)
    (hle : o.data.length ≤ c.data.length) :
    (calculateMSE o c).isSome = true ∧ (calculateDifference o c).isSome = true := by
  refine ⟨?_, calculateDifference_isSome o c hlen4 hpos hle⟩
  rw [calculateMSE_eq o c hlen4 hpos hle]
  rfl

/-- C3 witness: a 1x1 original against a 2x1 compressed raster. -/
theorem metrics_no_dimension_check_witness :
    (((Raster.mk 1 1 [0, 0, 0, 255]).width ≠ (Raster.mk 2 1 [0, 0, 0, 255, 0, 0, 0, 255]).width ∨
        (Raster.mk 1 1 [0, 0, 0, 255]).height ≠
          (Raster.mk 2 1 [0, 0, 0, 255, 0, 0, 0, 255]).height) ∧
      (Raster.mk 1 1 [0, 0, 0, 255]).data.length % 4 = 0 ∧
      0 < (Raster.mk 1 1 [0, 0, 0, 255]).data.length ∧
      (Raster.mk 1 1 [0, 0, 0, 255]).data.length ≤
        (Raster.mk 2 1 [0, 0, 0, 255, 0, 0, 0, 255]).data.length) ∧
      ((calculateMSE (Raster.mk 1 1 [0, 0, 0, 255])
          (Raster.mk 2 1 [0, 0, 0, 255, 0, 0, 0, 255])).isSome = true ∧
        (calculateDifference (Raster.mk 1 1 [0, 0, 0, 255])
          (Raster.mk 2 1 [0, 0, 0, 255, 0, 0, 0, 255])).isSome = true) :=
  ⟨⟨by decide, by decide, by decide, by decide⟩,
    metrics_no_dimension_check (Raster.mk 1 1 [0, 0, 0, 255])
      (Raster.mk 2 1 [0, 0, 0, 255, 0, 0, 0, 255]) (by decide) (by decide) (by decide)
      (by decide)⟩

/-- C3 counterexample: on the mismatched pair (1x1 versus 2x1, all black),
`calculateMSE` returns the numeric result 0 — it does not fail, and the
codebase contains no `DimensionMismatch` error at all. -/
theorem metrics_mismatch_counterexample :
    (Raster.mk 1 1 [0, 0, 0, 255]).width ≠ (Raster.mk 2 1 [0, 0, 0, 255, 0, 0, 0, 255]).width ∧
      calculateMSE (Raster.mk 1 1 [0, 0, 0, 255]) (Raster.mk 2 1 [0, 0, 0, 255, 0, 0, 0, 255]) =
        some 0 ∧
      (calculateDifference (Raster.mk 1 1 [0, 0, 0, 255])
        (Raster.mk 2 1 [0, 0, 0, 255, 0, 0, 0, 255])).isSome = true := by
  refine ⟨by decide, ?_,
    calculateDifference_isSome _ _ (by decide) (by decide) (by decide)⟩
  rw [calculateMSE_eq _ _ (by decide) (by decide) (by decide)]
  rw [show chanIdx (Raster.mk 1 1 [0, 0, 0, 255]).data.length = [0, 1, 2] from rfl]
  norm_num

/-! ## Index decoding for the per-sample filter functions -/

theorem pixel_xy_mod {w x y : ℕ} (hx : x < w) : (y * w + x) % w = x := by
  rw [Nat.add_comm, Nat.add_mul_mod_self_right]
  exact Nat.mod_eq_of_lt hx

theorem pixel_xy_div {w x y : ℕ} (hx : x < w) : (y * w + x) / w = y := by
  have hw : 0 < w := by omega
  rw [Nat.add_comm, Nat.add_mul_div_right _ _ hw, Nat.div_eq_of_lt hx]
  omega

theorem pixel_index_lt {w h x y ch : ℕ} (hx : x < w) (hy : y < h) (hch : ch < 4) :
    (y * w + x) * 4 + ch < w * h * 4 := by
  have h1 : y * w + x < w * h := by
    calc y * w + x < y * w + w := by omega
      _ = (y + 1) * w := by ring
      _ ≤ h * w := Nat.mul_le_mul_right w hy
      _ = w * h := Nat.mul_comm h w
  omega

theorem getD_map_range {n k : ℕ} (f : ℕ → ℕ) (h : k < n) :
    ((List.range n).map f).getD k 0 = f k := by
  have hlt : k < ((List.range n).map f).length := by simpa using h
  rw [List.getD_eq_get _ _ hlt]
  simp

/-- Every sample read of a well-formed raster is a byte. -/
theorem getD_le_255 {r : Raster} (hwf : r.WF) (k : ℕ) : r.data.getD k 0 ≤ 255 := by
  by_cases h : k < r.data.length
  · rw [List.getD_eq_get _ _ h]
    exact hwf.2 _ (List.get_mem _ _ h)
  · rw [List.getD_eq_default _ _ (le_of_not_lt h)]
    norm_num

/-! ## Border and alpha behaviour of the two filters -/

theorem applyNoiseReduction_getD_alpha (img : Raster) (hwf : img.WF) (x y : ℕ)
    (hx : x < img.width) (hy : y < img.height) :
    (applyNoiseReduction img).data.getD ((y * img.width + x) * 4 + 3) 0 = 255 := by
  have hk : (y * img.width + x) * 4 + 3 < img.data.length := by
    rw [hwf.1]
    exact pixel_index_lt hx hy (by omega)
  simp only [applyNoiseReduction]
  rw [getD_map_range _ hk]
  simp only [noiseAt]
  rw [if_pos (by omega : ((y * img.width + x) * 4 + 3) % 4 = 3)]

theorem applyNoiseReduction_getD_border (img : Raster) (hwf : img.WF) (x y ch : ℕ)
    (hx : x < img.width) (hy : y < img.height) (hch : ch < 3)
    (hb : ¬(2 ≤ x ∧ x + 3 ≤ img.width ∧ 2 ≤ y ∧ y + 3 ≤ img.height)) :
    (applyNoiseReduction img).data.getD ((y * img.width + x) * 4 + ch) 0 =
      img.data.getD ((y * img.width + x) * 4 + ch) 0 := by
  have hk : (y * img.width + x) * 4 + ch < img.data.length := by
    rw [hwf.1]
    exact pixel_index_lt hx hy (by omega)
  simp only [applyNoiseReduction]
  rw [getD_map_range _ hk]
  simp only [noiseAt]
  rw [if_neg (by omega : ¬ ((y * img.width + x) * 4 + ch) % 4 = 3)]
  have e1 : ((y * img.width + x) * 4 + ch) / 4 = y * img.width + x := by omega
  rw [e1, pixel_xy_mod hx, pixel_xy_div hx]
  rw [if_neg ?hcond]
  · exact min_eq_left (getD_le_255 hwf _)
  case hcond =>
    rintro ⟨c1, c2, c3, c4⟩
    apply hb
    refine ⟨by omega, ?_, by omega, ?_⟩ <;> omega

theorem applyUnsharpMask_getD_alpha (img : Raster) (hwf : img.WF) (x y : ℕ)
    (hx : x < img.width) (hy : y < img.height) :
    (applyUnsharpMask img).data.getD ((y * img.width + x) * 4 + 3) 0 = 255 := by
  have hk : (y * img.width + x) * 4 + 3 < img.data.length := by
    rw [hwf.1]
    exact pixel_index_lt hx hy (by omega)
  simp only [applyUnsharpMask]
  rw [getD_map_range _ hk]
  simp only [unsharpAt]
  rw [if_pos (by omega : ((y * img.width + x) * 4 + 3) % 4 = 3)]

theorem applyUnsharpMask_getD_border (img : Raster) (hwf : img.WF) (x y ch : ℕ)
    (hx : x < img.width) (hy : y < img.height) (hch : ch < 3)
    (hb : ¬(1 ≤ x ∧ x + 2 ≤ img.width ∧ 1 ≤ y ∧ y + 2 ≤ img.height)) :
    (applyUnsharpMask img).data.getD ((y * img.width + x) * 4 + ch) 0 =
      img.data.getD ((y * img.width + x) * 4 + ch) 0 := by
  have hk : (y * img.width + x) * 4 + ch < img.data.length := by
    rw [hwf.1]
    exact pixel_index_lt hx hy (by omega)
  simp only [applyUnsharpMask]
  rw [getD_map_range _ hk]
  simp only [unsharpAt]
  rw [if_neg (by omega : ¬ ((y * img.width + x) * 4 + ch) % 4 = 3)]
  have e1 : ((y * img.width + x) * 4 + ch) / 4 = y * img.width + x := by omega
  rw [e1, pixel_xy_mod hx, pixel_xy_div hx]
  rw [if_neg ?hcond]
  · exact min_eq_left (getD_le_255 hwf _)
  case hcond =>
    rintro ⟨c1, c2, c3, c4⟩
    apply hb
    refine ⟨by omega, ?_, by omega, ?_⟩ <;> omega

theorem u8OfInt_eq {z : ℤ} (h0 : 0 ≤ z) (h255 : z ≤ 255) : u8OfInt z = z.toNat := by
  simp only [u8OfInt]
  rw [max_eq_right h0, min_eq_right h255]

theorem sum_triple (f : ℤ → ℚ) :
    ∑ a in ({-1, 0, 1} : Finset ℤ), f a = f (-1) + f 0 + f 1 := by
  rw [show ({-1, 0, 1} : Finset ℤ) = insert (-1) (insert 0 {1}) from rfl,
    Finset.sum_insert (by decide), Finset.sum_insert (by decide), Finset.sum_singleton]
  ring

theorem sum_nine (f : ℤ × ℤ → ℚ) :
    ∑ p in (({-1, 0, 1} : Finset ℤ) ×ˢ ({-1, 0, 1} : Finset ℤ)), f p =
      f (-1, -1) + f (-1, 0) + f (-1, 1) + f (0, -1) + f (0, 0) + f (0, 1) +
        f (1, -1) + f (1, 0) + f (1, 1) := by
  rw [Finset.sum_product,
    sum_triple (fun a => ∑ b in ({-1, 0, 1} : Finset ℤ), f (a, b)),
    sum_triple (fun b => f (-1, b)), sum_triple (fun b => f (0, b)),
    sum_triple (fun b => f (1, b))]
  ring

theorem map_noiseOffsets_sum_eq (g : ℤ × ℤ → ℚ) :
    (noiseOffsets.map g).sum =
      ∑ p in (({-1, 0, 1} : Finset ℤ) ×ˢ ({-1, 0, 1} : Finset ℤ)), g p := by
  rw [sum_nine]
  simp only [noiseOffsets, List.map_cons, List.map_nil, List.sum_cons, List.sum_nil]
  ring

theorem noiseWeight_pos (p : ℤ × ℤ) : 0 < (1 : ℚ) / ((1 + |p.2| + |p.1| : ℤ) : ℚ) := by
  have h1 : (0 : ℤ) < 1 + |p.2| + |p.1| := by positivity
  have h2 : (0 : ℚ) < ((1 + |p.2| + |p.1| : ℤ) : ℚ) := by exact_mod_cast h1
  positivity

theorem noiseWeightSum_eq :
    (∑ p in (({-1, 0, 1} : Finset ℤ) ×ˢ ({-1, 0, 1} : Finset ℤ)),
        (1 : ℚ) / ((1 + |p.2| + |p.1| : ℤ) : ℚ)) = 13/3 := by
  rw [sum_nine]
  norm_num

theorem claimedNoiseAverage_nonneg (img : Raster) (x y ch : ℕ) :
    0 ≤ claimedNoiseAverage img x y ch := by
  unfold claimedNoiseAverage
  apply div_nonneg
  · apply Finset.sum_nonneg
    intro p _
    exact mul_nonneg (by positivity) (noiseWeight_pos p).le
  · apply Finset.sum_nonneg
    intro p _
    exact (noiseWeight_pos p).le

theorem claimedNoiseAverage_le_255 (img : Raster) (hwf : img.WF) (x y ch : ℕ) :
    claimedNoiseAverage img x y ch ≤ 255 := by
  unfold claimedNoiseAverage
  rw [noiseWeightSum_eq, div_le_iff₀ (by norm_num)]
  have hsum : (∑ p in (({-1, 0, 1} : Finset ℤ) ×ˢ ({-1, 0, 1} : Finset ℤ)),
      (img.data.getD (((((y : ℤ) + p.1) * img.width + ((x : ℤ) + p.2)) * 4).toNat + ch) 0 : ℚ)
        * ((1 : ℚ) / ((1 + |p.2| + |p.1| : ℤ) : ℚ))) ≤
      ∑ p in (({-1, 0, 1} : Finset ℤ) ×ˢ ({-1, 0, 1} : Finset ℤ)),
        255 * ((1 : ℚ) / ((1 + |p.2| + |p.1| : ℤ) : ℚ)) := by
    apply Finset.sum_le_sum
    intro p _
    apply mul_le_mul_of_nonneg_right _ (noiseWeight_pos p).le
    exact_mod_cast getD_le_255 hwf _
  calc (∑ p in (({-1, 0, 1} : Finset ℤ) ×ˢ ({-1, 0, 1} : Finset ℤ)),
      (img.data.getD (((((y : ℤ) + p.1) * img.width + ((x : ℤ) + p.2)) * 4).toNat + ch) 0 : ℚ)
        * ((1 : ℚ) / ((1 + |p.2| + |p.1| : ℤ) : ℚ))) ≤
      ∑ p in (({-1, 0, 1} : Finset ℤ) ×ˢ ({-1, 0, 1} : Finset ℤ)),
        255 * ((1 : ℚ) / ((1 + |p.2| + |p.1| : ℤ) : ℚ)) := hsum
    _ = 255 * (∑ p in (({-1, 0, 1} : Finset ℤ) ×ˢ ({-1, 0, 1} : Finset ℤ)),
        (1 : ℚ) / ((1 + |p.2| + |p.1| : ℤ) : ℚ)) := by rw [Finset.mul_sum]
    _ = 255 * (13/3) := by rw [noiseWeightSum_eq]
    _ = 255 * (13/3) := rfl

/-- Interior behaviour of the noise-reduction filter: for pixels at least
two away from every edge, the output channel is the rounded 3x3 weighted
average. -/
theorem applyNoiseReduction_getD_interior (img : Raster) (hwf : img.WF) (x y ch : ℕ)
    (hch : ch < 3) (hx1 : 2 ≤ x) (hx2 : x + 3 ≤ img.width)
    (hy1 : 2 ≤ y) (hy2 : y + 3 ≤ img.height) :
    (applyNoiseReduction img).data.getD ((y * img.width + x) * 4 + ch) 0 =
      (jsRound (claimedNoiseAverage img x y ch)).toNat := by
  have hx : x < img.width := by omega
  have hy : y < img.height := by omega
  have hk : (y * img.width + x) * 4 + ch < img.data.length := by
    rw [hwf.1]
    exact pixel_index_lt hx hy (by omega)
  have e0 : ((y * img.width + x) * 4 + ch) % 4 = ch := by omega
  have e1 : ((y * img.width + x) * 4 + ch) / 4 = y * img.width + x := by omega
  simp only [applyNoiseReduction]
  rw [getD_map_range _ hk]
  simp only [noiseAt, e0, e1, pixel_xy_mod hx, pixel_xy_div hx]
  rw [if_neg (by omega : ¬ ch = 3)]
  rw [if_pos ⟨by omega, by omega, by omega, by omega⟩]
  rw [map_noiseOffsets_sum_eq, map_noiseOffsets_sum_eq]
  have h0 : (0 : ℤ) ≤ jsRound (claimedNoiseAverage img x y ch) :=
    jsRound_nonneg (claimedNoiseAverage_nonneg img x y ch)
  have h255 : jsRound (claimedNoiseAverage img x y ch) ≤ 255 :=
    jsRound_le_of_le (by exact_mod_cast claimedNoiseAverage_le_255 img hwf x y ch)
  exact u8OfInt_eq h0 h255

/-- C4 (amended): the noise-reduction filter replaces each pixel whose
coordinates lie in `[2, width-3] x [2, height-3]` (a 2-pixel margin, not
the claimed 1-pixel margin `[1, width-2]`) by the rounded 3x3 weighted
average with weights `1/(1+|dx|+|dy|)`; every other pixel's R,G,B pass
through unchanged and alpha is always set to 255. -/
theorem applyNoiseReduction_spec (img : Raster) (hwf : img.WF) (x y ch : ℕ)
    (hx : x < img.width) (hy : y < img.height) (hch : ch < 3) :
    ((2 ≤ x ∧ x + 3 ≤ img.width ∧ 2 ≤ y ∧ y + 3 ≤ img.height →
        (applyNoiseReduction img).data.getD ((y * img.width + x) * 4 + ch) 0 =
          (jsRound (claimedNoiseAverage img x y ch)).toNat) ∧
      (¬(2 ≤ x ∧ x + 3 ≤ img.width ∧ 2 ≤ y ∧ y + 3 ≤ img.height) →
        (applyNoiseReduction img).data.getD ((y * img.width + x) * 4 + ch) 0 =
          img.data.getD ((y * img.width + x) * 4 + ch) 0) ∧
      (applyNoiseReduction img).data.getD ((y * img.width + x) * 4 + 3) 0 = 255) := by
  refine ⟨?_, ?_, applyNoiseReduction_getD_alpha img hwf x y hx hy⟩
  · rintro ⟨h1, h2, h3, h4⟩
    exact applyNoiseReduction_getD_interior img hwf x y ch hch h1 h2 h3 h4
  · intro hb
    exact applyNoiseReduction_getD_border img hwf x y ch hx hy hch hb

/-- C4 witness: the interior case at pixel (2,2) of an all-black 5x5
raster, and the hypotheses hold concretely. -/
theorem applyNoiseReduction_spec_witness :
    ((Raster.mk 5 5 (List.replicate 100 0)).WF ∧ 2 < 5 ∧ 2 < 5 ∧ 0 < 3) ∧
      ((2 ≤ 2 ∧ 2 + 3 ≤ (Raster.mk 5 5 (List.replicate 100 0)).width ∧ 2 ≤ 2 ∧
          2 + 3 ≤ (Raster.mk 5 5 (List.replicate 100 0)).height →
        (applyNoiseReduction (Raster.mk 5 5 (List.replicate 100 0))).data.getD
            ((2 * (Raster.mk 5 5 (List.replicate 100 0)).width + 2) * 4 + 0) 0 =
          (jsRound (claimedNoiseAverage (Raster.mk 5 5 (List.replicate 100 0)) 2 2 0)).toNat) ∧
      (¬(2 ≤ 2 ∧ 2 + 3 ≤ (Raster.mk 5 5 (List.replicate 100 0)).width ∧ 2 ≤ 2 ∧
          2 + 3 ≤ (Raster.mk 5 5 (List.replicate 100 0)).height) →
        (applyNoiseReduction (Raster.mk 5 5 (List.replicate 100 0))).data.getD
            ((2 * (Raster.mk 5 5 (List.replicate 100 0)).width + 2) * 4 + 0) 0 =
          (Raster.mk 5 5 (List.replicate 100 0)).data.getD
            ((2 * (Raster.mk 5 5 (List.replicate 100 0)).width + 2) * 4 + 0) 0) ∧
      (applyNoiseReduction (Raster.mk 5 5 (List.replicate 100 0))).data.getD
          ((2 * (Raster.mk 5 5 (List.replicate 100 0)).width + 2) * 4 + 3) 0 = 255) :=
  ⟨⟨by decide, by decide, by decide, by decide⟩,
    applyNoiseReduction_spec (Raster.mk 5 5 (List.replicate 100 0)) (by decide) 2 2 0
      (by decide) (by decide) (by decide)⟩

/-- C5 (amended): both filters pass the R,G,B samples of their border
pixels through byte-identically (1-pixel margin for the unsharp mask,
2-pixel margin for noise reduction), but the alpha channel is always
written as 255, so a border pixel is byte-identical in all four channels
only when its input alpha is already 255. -/
theorem filters_border_spec (img : Raster) (hwf : img.WF) (x y ch : ℕ)
    (hx : x < img.width) (hy : y < img.height) (hch : ch < 3) :
    ((¬(1 ≤ x ∧ x + 2 ≤ img.width ∧ 1 ≤ y ∧ y + 2 ≤ img.height) →
        (applyUnsharpMask img).data.getD ((y * img.width + x) * 4 + ch) 0 =
          img.data.getD ((y * img.width + x) * 4 + ch) 0) ∧
      (¬(2 ≤ x ∧ x + 3 ≤ img.width ∧ 2 ≤ y ∧ y + 3 ≤ img.height) →
        (applyNoiseReduction img).data.getD ((y * img.width + x) * 4 + ch) 0 =
          img.data.getD ((y * img.width + x) * 4 + ch) 0) ∧
      (applyUnsharpMask img).data.getD ((y * img.width + x) * 4 + 3) 0 = 255 ∧
      (applyNoiseReduction img).data.getD ((y * img.width + x) * 4 + 3) 0 = 255) :=
  ⟨fun hb => applyUnsharpMask_getD_border img hwf x y ch hx hy hch hb,
    fun hb => applyNoiseReduction_getD_border img hwf x y ch hx hy hch hb,
    applyUnsharpMask_getD_alpha img hwf x y hx hy,
    applyNoiseReduction_getD_alpha img hwf x y hx hy⟩

/-- C5 witness: the border pixel (0,0) of a 1x1 raster. -/
theorem filters_border_spec_witness :
    ((Raster.mk 1 1 [10, 20, 30, 7]).WF ∧ 0 < 1 ∧ 0 < 3) ∧
      ((¬(1 ≤ 0 ∧ 0 + 2 ≤ (Raster.mk 1 1 [10, 20, 30, 7]).width ∧ 1 ≤ 0 ∧
          0 + 2 ≤ (Raster.mk 1 1 [10, 20, 30, 7]).height) →
        (applyUnsharpMask (Raster.mk 1 1 [10, 20, 30, 7])).data.getD
            ((0 * (Raster.mk 1 1 [10, 20, 30, 7]).width + 0) * 4 + 0) 0 =
          (Raster.mk 1 1 [10, 20, 30, 7]).data.getD
            ((0 * (Raster.mk 1 1 [10, 20, 30, 7]).width + 0) * 4 + 0) 0) ∧
      (¬(2 ≤ 0 ∧ 0 + 3 ≤ (Raster.mk 1 1 [10, 20, 30, 7]).width ∧ 2 ≤ 0 ∧
          0 + 3 ≤ (Raster.mk 1 1 [10, 20, 30, 7]).height) →
        (applyNoiseReduction (Raster.mk 1 1 [10, 20, 30, 7])).data.getD
            ((0 * (Raster.mk 1 1 [10, 20, 30, 7]).width + 0) * 4 + 0) 0 =
          (Raster.mk 1 1 [10, 20, 30, 7]).data.getD
            ((0 * (Raster.mk 1 1 [10, 20, 30, 7]).width + 0) * 4 + 0) 0) ∧
      (applyUnsharpMask (Raster.mk 1 1 [10, 20, 30, 7])).data.getD
          ((0 * (Raster.mk 1 1 [10, 20, 30, 7]).width + 0) * 4 + 3) 0 = 255 ∧
      (applyNoiseReduction (Raster.mk 1 1 [10, 20, 30, 7])).data.getD
          ((0 * (Raster.mk 1 1 [10, 20, 30, 7]).width + 0) * 4 + 3) 0 = 255) :=
  ⟨⟨by decide, by decide, by decide⟩,
    filters_border_spec (Raster.mk 1 1 [10, 20, 30, 7]) (by decide) 0 0 0
      (by decide) (by decide) (by decide)⟩

/-- C4 counterexample: in a 4x4 raster that is black except for pixel
(1,1), that pixel has a full 3x3 neighbourhood and lies in the claim's
filtered region `x, y ∈ [1, dim-2]`, yet `applyNoiseReduction` passes it
through unchanged (255) instead of replacing it with the claimed rounded
weighted average (59). -/
theorem applyNoiseReduction_counterexample :
    (1 ≤ (1 : ℕ) ∧ (1 : ℕ) ≤ 4 - 2) ∧
      (applyNoiseReduction (Raster.mk 4 4 (List.replicate 20 0 ++ 255 :: List.replicate 43 0))).data.getD 20 0 = 255 ∧
      (jsRound (claimedNoiseAverage (Raster.mk 4 4 (List.replicate 20 0 ++ 255 :: List.replicate 43 0)) 1 1 0)).toNat = 59 ∧
      (255 : ℕ) ≠ 59 := by
  refine ⟨by decide, ?_, ?_, by decide⟩
  · have h := applyNoiseReduction_getD_border (Raster.mk 4 4 (List.replicate 20 0 ++ 255 :: List.replicate 43 0))
      (by decide) 1 1 0 (by decide) (by decide) (by decide) (by omega)
    rw [show (1 * (Raster.mk 4 4 (List.replicate 20 0 ++ 255 :: List.replicate 43 0)).width + 1) * 4 + 0 = 20 from rfl] at h
    rw [(by decide : (Raster.mk 4 4 (List.replicate 20 0 ++ 255 :: List.replicate 43 0)).data.getD 20 0 = 255)] at h
    exact h
  · have havg : claimedNoiseAverage (Raster.mk 4 4 (List.replicate 20 0 ++ 255 :: List.replicate 43 0)) 1 1 0 = 765/13 := by
      have d0 : (List.replicate 20 0 ++ 255 :: List.replicate 43 0 : List ℕ).getD ((((((1 : ℕ) : ℤ) + (-1 : ℤ)) * ((4 : ℕ) : ℤ) + (((1 : ℕ) : ℤ) + (-1 : ℤ))) * (4 : ℤ)).toNat + (0 : ℕ)) 0 = 0 := by decide
      have d1 : (List.replicate 20 0 ++ 255 :: List.replicate 43 0 : List ℕ).getD ((((((1 : ℕ) : ℤ) + (-1 : ℤ)) * ((4 : ℕ) : ℤ) + (((1 : ℕ) : ℤ) + (0 : ℤ))) * (4 : ℤ)).toNat + (0 : ℕ)) 0 = 0 := by decide
      have d2 : (List.replicate 20 0 ++ 255 :: List.replicate 43 0 : List ℕ).getD ((((((1 : ℕ) : ℤ) + (-1 : ℤ)) * ((4 : ℕ) : ℤ) + (((1 : ℕ) : ℤ) + (1 : ℤ))) * (4 : ℤ)).toNat + (0 : ℕ)) 0 = 0 := by decide
      have d3 : (List.replicate 20 0 ++ 255 :: List.replicate 43 0 : List ℕ).getD ((((((1 : ℕ) : ℤ) + (0 : ℤ)) * ((4 : ℕ) : ℤ) + (((1 : ℕ) : ℤ) + (-1 : ℤ))) * (4 : ℤ)).toNat + (0 : ℕ)) 0 = 0 := by decide
      have d4 : (List.replicate 20 0 ++ 255 :: List.replicate 43 0 : List ℕ).getD ((((((1 : ℕ) : ℤ) + (0 : ℤ)) * ((4 : ℕ) : ℤ) + (((1 : ℕ) : ℤ) + (0 : ℤ))) * (4 : ℤ)).toNat + (0 : ℕ)) 0 = 255 := by decide
      have d5 : (List.replicate 20 0 ++ 255 :: List.replicate 43 0 : List ℕ).getD ((((((1 : ℕ) : ℤ) + (0 : ℤ)) * ((4 : ℕ) : ℤ) + (((1 : ℕ) : ℤ) + (1 : ℤ))) * (4 : ℤ)).toNat + (0 : ℕ)) 0 = 0 := by decide
      have d6 : (List.replicate 20 0 ++ 255 :: List.replicate 43 0 : List ℕ).getD ((((((1 : ℕ) : ℤ) + (1 : ℤ)) * ((4 : ℕ) : ℤ) + (((1 : ℕ) : ℤ) + (-1 : ℤ))) * (4 : ℤ)).toNat + (0 : ℕ)) 0 = 0 := by decide
      have d7 : (List.replicate 20 0 ++ 255 :: List.replicate 43 0 : List ℕ).getD ((((((1 : ℕ) : ℤ) + (1 : ℤ)) * ((4 : ℕ) : ℤ) + (((1 : ℕ) : ℤ) + (0 : ℤ))) * (4 : ℤ)).toNat + (0 : ℕ)) 0 = 0 := by decide
      have d8 : (List.replicate 20 0 ++ 255 :: List.replicate 43 0 : List ℕ).getD ((((((1 : ℕ) : ℤ) + (1 : ℤ)) * ((4 : ℕ) : ℤ) + (((1 : ℕ) : ℤ) + (1 : ℤ))) * (4 : ℤ)).toNat + (0 : ℕ)) 0 = 0 := by decide
      simp only [claimedNoiseAverage, sum_nine, d0, d1, d2, d3, d4, d5, d6, d7, d8]
      norm_num
    rw [havg, (by norm_num [jsRound] : jsRound (765/13 : ℚ) = 59)]
    rfl

/-- C5 counterexample: the single (border) pixel of a 1x1 raster with
input alpha 7 is not byte-identical after either filter — the alpha byte
is rewritten to 255. -/
theorem filters_border_alpha_counterexample :
    (applyUnsharpMask (Raster.mk 1 1 [10, 20, 30, 7])).data.getD 3 0 = 255 ∧
      (applyNoiseReduction (Raster.mk 1 1 [10, 20, 30, 7])).data.getD 3 0 = 255 ∧
      (Raster.mk 1 1 [10, 20, 30, 7]).data.getD 3 0 = 7 ∧ (255 : ℕ) ≠ 7 := by
  refine ⟨?_, ?_, by decide, by decide⟩
  · have h := applyUnsharpMask_getD_alpha (Raster.mk 1 1 [10, 20, 30, 7])
      (by decide) 0 0 (by decide) (by decide)
    rw [show (0 * (Raster.mk 1 1 [10, 20, 30, 7]).width + 0) * 4 + 3 = 3 from rfl] at h
    exact h
  · have h := applyNoiseReduction_getD_alpha (Raster.mk 1 1 [10, 20, 30, 7])
      (by decide) 0 0 (by decide) (by decide)
    rw [show (0 * (Raster.mk 1 1 [10, 20, 30, 7]).width + 0) * 4 + 3 = 3 from rfl] at h
    exact h

/-! ## Bounds for the Metrics Engine (claim C6) -/

theorem jsRoundReal_nonneg {x : ℝ} (h : 0 ≤ x) : 0 ≤ jsRoundReal x := by
  unfold jsRoundReal
  have : (0 : ℤ) = ⌊(1/2 : ℝ)⌋ := by norm_num
  rw [this]
  exact Int.floor_le_floor (by linarith)

theorem jsRoundReal_le_of_le {x : ℝ} {n : ℤ} (h : x ≤ n) : jsRoundReal x ≤ n := by
  unfold jsRoundReal
  have : ⌊x + 1/2⌋ < n + 1 := by
    rw [Int.floor_lt]
    push_cast
    linarith
  omega

theorem calculateMSE_bounds (o c : Raster) (ho : o.WF) (hc : c.WF)
    (hw : c.width = o.width) (hh : c.height = o.height) (hpos : 0 < o.width * o.height) :
    ∃ m : ℚ, calculateMSE o c = some m ∧ 0 ≤ m ∧ m ≤ 255^2 := by
  have hlen : o.data.length = o.width * o.height * 4 := ho.1
  have hlen4 : o.data.length % 4 = 0 := by omega
  have hposl : 0 < o.data.length := by
    rw [hlen]
    positivity
  have hle : o.data.length ≤ c.data.length := by
    rw [hlen, hc.1, hw, hh]
  refine ⟨_, calculateMSE_eq o c hlen4 hposl hle, ?_, ?_⟩
  · apply div_nonneg _ (by positivity)
    apply List.sum_nonneg
    intro q hq
    obtain ⟨k, _, rfl⟩ := List.mem_map.mp hq
    positivity
  · rw [div_le_iff₀ (by exact_mod_cast chanIdx_length_pos hposl)]
    have hbound : ∀ q ∈ (chanIdx o.data.length).map
        (fun k => ((o.data.getD k 0 : ℚ) - (c.data.getD k 0 : ℚ))^2), q ≤ 255^2 := by
      intro q hq
      obtain ⟨k, _, rfl⟩ := List.mem_map.mp hq
      have h1 : (o.data.getD k 0 : ℚ) ≤ 255 := by exact_mod_cast getD_le_255 ho k
      have h2 : (c.data.getD k 0 : ℚ) ≤ 255 := by exact_mod_cast getD_le_255 hc k
      have h3 : (0 : ℚ) ≤ (o.data.getD k 0 : ℚ) := by positivity
      have h4 : (0 : ℚ) ≤ (c.data.getD k 0 : ℚ) := by positivity
      nlinarith
    calc ((chanIdx o.data.length).map
        (fun k => ((o.data.getD k 0 : ℚ) - (c.data.getD k 0 : ℚ))^2)).sum ≤
        ((chanIdx o.data.length).map
          (fun k => ((o.data.getD k 0 : ℚ) - (c.data.getD k 0 : ℚ))^2)).length • (255^2 : ℚ) :=
        List.sum_le_card_nsmul _ _ hbound
      _ = ((chanIdx o.data.length).length : ℚ) * 255^2 := by
        rw [List.length_map, nsmul_eq_mul]
      _ = 255^2 * ((chanIdx o.data.length).length : ℚ) := by ring

theorem psnrOfMse_nonneg {m : ℚ} (h0 : 0 ≤ m) (h255 : m ≤ 255^2) : 0 ≤ psnrOfMse m := by
  unfold psnrOfMse
  by_cases hm : m = 0
  · rw [if_pos hm]
    norm_num
  · rw [if_neg hm]
    have hmr : (0 : ℝ) < (m : ℝ) := by
      have : (0 : ℚ) < m := lt_of_le_of_ne h0 (Ne.symm hm)
      exact_mod_cast this
    have hsq : Real.sqrt (m : ℝ) ≤ 255 := by
      have h1 : (m : ℝ) ≤ 255^2 := by exact_mod_cast h255
      calc Real.sqrt (m : ℝ) ≤ Real.sqrt (255^2) := Real.sqrt_le_sqrt h1
        _ = 255 := by
          rw [Real.sqrt_sq]
          norm_num
    have hs0 : 0 < Real.sqrt (m : ℝ) := Real.sqrt_pos.mpr hmr
    have h1le : (1 : ℝ) ≤ 255 / Real.sqrt (m : ℝ) := by
      rw [le_div_iff₀ hs0]
      linarith
    exact mul_nonneg (by norm_num) (Real.logb_nonneg (by norm_num) h1le)

theorem grayAt_nonneg (d : List ℕ) (p : ℕ) : 0 ≤ grayAt d p := by
  unfold grayAt
  positivity

/-- The sum-of-squares inequality behind SSIM: twice the (uncentred or
centred) covariance term is at most the sum of the two variance terms. -/
theorem var_covar_ineq (n : ℕ) (f g : ℕ → ℚ) (a b : ℚ) :
    2 * ((∑ p in Finset.range n, (f p - a) * (g p - b)) / n) ≤
      (∑ p in Finset.range n, (f p - a)^2) / n +
        (∑ p in Finset.range n, (g p - b)^2) / n := by
  rcases Nat.eq_zero_or_pos n with hn | hn
  · subst hn
    simp
  · have hnq : (0 : ℚ) < (n : ℚ) := by exact_mod_cast hn
    have expand : ∑ p in Finset.range n, ((f p - a) - (g p - b))^2 =
        (∑ p in Finset.range n, (f p - a)^2) + (∑ p in Finset.range n, (g p - b)^2) -
          2 * (∑ p in Finset.range n, (f p - a) * (g p - b)) := by
      rw [Finset.mul_sum, ← Finset.sum_add_distrib, ← Finset.sum_sub_distrib]
      apply Finset.sum_congr rfl
      intro p _
      ring
    have key : 0 ≤ (∑ p in Finset.range n, (f p - a)^2) +
        (∑ p in Finset.range n, (g p - b)^2) -
        2 * (∑ p in Finset.range n, (f p - a) * (g p - b)) := by
      rw [← expand]
      apply Finset.sum_nonneg
      intro p _
      positivity
    rw [div_add_div_same, mul_div_assoc']
    rw [div_le_div_iff_of_pos_right hnq]
    linarith

/-- The algebraic core of the SSIM bound: the simplified global SSIM value
is at most 1 whenever the means are nonnegative, the variances are
nonnegative and twice the covariance is at most the variance sum. -/
theorem ssim_core_le_one (m1 m2 v1 v2 cov : ℚ) (hm1 : 0 ≤ m1) (hm2 : 0 ≤ m2)
    (hv1 : 0 ≤ v1) (hv2 : 0 ≤ v2) (hcov : 2 * cov ≤ v1 + v2) :
    ((2 * m1 * m2 + 6.5025) * (2 * cov + 58.5225)) /
      ((m1 * m1 + m2 * m2 + 6.5025) * (v1 + v2 + 58.5225)) ≤ 1 := by
  have hm1m2 : 0 ≤ m1 * m2 := mul_nonneg hm1 hm2
  have hA : (0 : ℚ) < m1 * m1 + m2 * m2 + 6.5025 := by nlinarith
  have hX : (0 : ℚ) < v1 + v2 + 58.5225 := by nlinarith
  have hden : (0 : ℚ) < (m1 * m1 + m2 * m2 + 6.5025) * (v1 + v2 + 58.5225) :=
    mul_pos hA hX
  rw [div_le_one hden]
  have hAB : 2 * m1 * m2 + 6.5025 ≤ m1 * m1 + m2 * m2 + 6.5025 := by
    nlinarith [sq_nonneg (m1 - m2)]
  have hB0 : (0 : ℚ) < 2 * m1 * m2 + 6.5025 := by nlinarith
  by_cases hY : 0 ≤ 2 * cov + 58.5225
  · calc (2 * m1 * m2 + 6.5025) * (2 * cov + 58.5225) ≤
        (m1 * m1 + m2 * m2 + 6.5025) * (2 * cov + 58.5225) :=
        mul_le_mul_of_nonneg_right hAB hY
      _ ≤ (m1 * m1 + m2 * m2 + 6.5025) * (v1 + v2 + 58.5225) :=
        mul_le_mul_of_nonneg_left (by linarith) hA.le
  · push_neg at hY
    have : (2 * m1 * m2 + 6.5025) * (2 * cov + 58.5225) < 0 :=
      mul_neg_of_pos_of_neg hB0 hY
    linarith

/-- C6 ingredient: the simplified global SSIM of the source never exceeds 1
on any pair of rasters, because the grayscale lumas are nonnegative and the
Cauchy-Schwarz-style inequality bounds the covariance. -/
theorem calculateSSIM_le_one (o c : Raster) : calculateSSIM o c ≤ 1 := by
  simp only [calculateSSIM]
  apply ssim_core_le_one
  · exact div_nonneg (Finset.sum_nonneg fun p _ => grayAt_nonneg _ p) (by positivity)
  · exact div_nonneg (Finset.sum_nonneg fun p _ => grayAt_nonneg _ p) (by positivity)
  · exact div_nonneg (Finset.sum_nonneg fun p _ => by positivity) (by positivity)
  · exact div_nonneg (Finset.sum_nonneg fun p _ => by positivity) (by positivity)
  · exact var_covar_ineq _ _ _ _ _

theorem calculateSharpness_nonneg (img : Raster) : 0 ≤ calculateSharpness img := by
  simp only [calculateSharpness]
  split
  · apply div_nonneg _ (by norm_num)
    apply div_nonneg _ (by positivity)
    exact Finset.sum_nonneg fun yx _ => Real.sqrt_nonneg _
  · exact le_refl 0

theorem calculateContrast_nonneg (img : Raster) : 0 ≤ calculateContrast img := by
  simp only [calculateContrast]
  positivity

theorem calculateColorfulness_nonneg (img : Raster) : 0 ≤ calculateColorfulness img := by
  simp only [calculateColorfulness]
  positivity

theorem calculateFileEfficiency_nonneg {originalSize compressedSize : ℚ} {psnr : ℝ}
    (h1 : 0 < originalSize) (h2 : 0 < compressedSize) (hp : 0 ≤ psnr) :
    0 ≤ calculateFileEfficiency originalSize compressedSize psnr := by
  simp only [calculateFileEfficiency]
  apply div_nonneg _ (by norm_num)
  apply mul_nonneg
  · have : (0 : ℚ) ≤ originalSize / compressedSize := le_of_lt (div_pos h1 h2)
    exact_mod_cast this
  · exact le_min (by positivity) zero_le_one

/-- Bounds of the aggregation step: with a nonnegative PSNR, an SSIM at
most 1 and nonnegative remaining metrics, the overall score is an integer
in [0, 100]. -/
theorem calculateOverallQuality_bounds (metrics : OverallMetricsInput)
    (hpsnr : 0 ≤ metrics.psnr) (hssim : metrics.ssim ≤ 1) (hsharp : 0 ≤ metrics.sharpness)
    (hcon : 0 ≤ metrics.contrast) (hcol : 0 ≤ metrics.colorfulness)
    (heff : 0 ≤ metrics.fileEfficiency) :
    0 ≤ calculateOverallQuality metrics ∧ calculateOverallQuality metrics ≤ 100 := by
  simp only [calculateOverallQuality]
  have ha0 : 0 ≤ min (metrics.psnr / 40) 1 := le_min (by positivity) zero_le_one
  have ha1 : min (metrics.psnr / 40) 1 ≤ 1 := min_le_right _ _
  have hb0 : 0 ≤ max 0 metrics.ssim := le_max_left _ _
  have hb1 : max 0 metrics.ssim ≤ 1 := max_le zero_le_one hssim
  have hc0 : 0 ≤ min (metrics.sharpness * 2) 1 := le_min (by positivity) zero_le_one
  have hc1 : min (metrics.sharpness * 2) 1 ≤ 1 := min_le_right _ _
  have hd0 : 0 ≤ min (metrics.contrast * 2) 1 := le_min (by positivity) zero_le_one
  have hd1 : min (metrics.contrast * 2) 1 ≤ 1 := min_le_right _ _
  have he0 : 0 ≤ min (metrics.colorfulness * 2) 1 := le_min (by positivity) zero_le_one
  have he1 : min (metrics.colorfulness * 2) 1 ≤ 1 := min_le_right _ _
  have hf0 : 0 ≤ min (metrics.fileEfficiency / 2) 1 := le_min (by positivity) zero_le_one
  have hf1 : min (metrics.fileEfficiency / 2) 1 ≤ 1 := min_le_right _ _
  constructor
  · apply jsRoundReal_nonneg
    nlinarith
  · apply jsRoundReal_le_of_le
    push_cast
    nlinarith

/-- C6: on equal-dimension well-formed rasters with positive pixel count
and positive byte sizes, the pipeline of `analyzeImageQuality` produces an
overall quality score that is an integer in [0, 100]; in particular the
weighted sum of normalized terms never exceeds 1, which rests on the
global SSIM formula being bounded above by 1 on real pixel data. -/
theorem overallQuality_in_range (o c : Raster) (origSize compSize : ℚ)
    (ho : o.WF) (hc : c.WF) (hw : c.width = o.width) (hh : c.height = o.height)
    (hpos : 0 < o.width * o.height) (hs1 : 0 < origSize) (hs2 : 0 < compSize) :
    ∃ q : ℤ, overallQualityOf o c origSize compSize = some q ∧ 0 ≤ q ∧ q ≤ 100 := by
  obtain ⟨m, hm, hm0, hm255⟩ := calculateMSE_bounds o c ho hc hw hh hpos
  have hpsnr : calculatePSNR o c = some (psnrOfMse m) := by
    unfold calculatePSNR
    rw [hm]
    rfl
  have hpsnr0 : 0 ≤ psnrOfMse m := psnrOfMse_nonneg hm0 hm255
  refine ⟨calculateOverallQuality
      { psnr := psnrOfMse m
        ssim := ((calculateSSIM o c : ℚ) : ℝ)
        sharpness := calculateSharpness c
        contrast := calculateContrast c
        colorfulness := calculateColorfulness c
        fileEfficiency := calculateFileEfficiency origSize compSize (psnrOfMse m) }, ?_, ?_⟩
  · unfold overallQualityOf
    rw [hpsnr]
    rfl
  · apply calculateOverallQuality_bounds
    · exact hpsnr0
    · have h := calculateSSIM_le_one o c
      have : ((calculateSSIM o c : ℚ) : ℝ) ≤ ((1 : ℚ) : ℝ) := by exact_mod_cast h
      simpa using this
    · exact calculateSharpness_nonneg c
    · exact calculateContrast_nonneg c
    · exact calculateColorfulness_nonneg c
    · exact calculateFileEfficiency_nonneg hs1 hs2 hpsnr0

/-- C6 witness: a concrete pair of equal 1x1 rasters with unit sizes. -/
theorem overallQuality_in_range_witness :
    ((Raster.mk 1 1 [10, 20, 30, 255]).WF ∧ (Raster.mk 1 1 [40, 50, 60, 255]).WF ∧
      (Raster.mk 1 1 [40, 50, 60, 255]).width = (Raster.mk 1 1 [10, 20, 30, 255]).width ∧
      (Raster.mk 1 1 [40, 50, 60, 255]).height = (Raster.mk 1 1 [10, 20, 30, 255]).height ∧
      0 < (Raster.mk 1 1 [10, 20, 30, 255]).width * (Raster.mk 1 1 [10, 20, 30, 255]).height ∧
      (0 : ℚ) < 1000 ∧ (0 : ℚ) < 400) ∧
      ∃ q : ℤ, overallQualityOf (Raster.mk 1 1 [10, 20, 30, 255])
          (Raster.mk 1 1 [40, 50, 60, 255]) 1000 400 = some q ∧ 0 ≤ q ∧ q ≤ 100 :=
  ⟨⟨by decide, by decide, by decide, by decide, by decide, by norm_num, by norm_num⟩,
    overallQuality_in_range (Raster.mk 1 1 [10, 20, 30, 255])
      (Raster.mk 1 1 [40, 50, 60, 255]) 1000 400 (by decide) (by decide) (by decide)
      (by decide) (by decide) (by norm_num) (by norm_num)⟩
